import Mathlib

/-!
Verification of the MedVoice AI real-time voice session orchestrator.

This file gives a shallow embedding, in Lean, of the parts of the
repository that the verified properties talk about:

* `backend/voice/conversation.py` — emergency / transfer lexicons, the
  head of `get_response_streaming`, `handle_tool_call`,
  `_handle_book_appointment`, `get_call_status`;
* `backend/voice/asr_client.py` — `_detect_language`, `_update_language`;
* `backend/voice/audio_utils.py` — `to_twilio_format`, `from_twilio_format`
  (base64 over the standard alphabet, modelling CPython's `base64` module);
* `backend/voice/twilio_handler.py` — the pending-media buffer protocol of
  `_handle_media` / `_connect_asr_and_flush`, the `is_generating_response`
  guard of `_on_utterance_end` / `_speak_streaming`, and the
  sentence-boundary chunking loop of `_speak_streaming`;
* `backend/llm/client.py` — the primary/fallback retry of `LLMClient.chat`
  and `_get_error_message`.

Bytes are modelled as `Nat` values below 256; Python strings are modelled
as Lean `String`s (`str.lower` is modelled on the ASCII range, which covers
every keyword comparison performed by the code).
-/

namespace MedVoice

/-! ## String helpers (models of Python string primitives) -/

/-- Model of Python `needle.startswith` on character lists: `n` is an
initial segment of `h`. -/
def startsWithL : List Char → List Char → Bool
  | [], _ => true
  | _ :: _, [] => false
  | a :: as, b :: bs => a == b && startsWithL as bs

/-- Model of the Python substring test `n in h` on character lists. -/
def containsSubL (n : List Char) : List Char → Bool
  | [] => startsWithL n []
  | c :: rest => startsWithL n (c :: rest) || containsSubL n rest

/-- Model of the Python substring test `needle in haystack`. -/
def containsSub (needle haystack : String) : Bool :=
  containsSubL needle.data haystack.data

/-- ASCII branch of Python `str.lower` on a single character. -/
def asciiLower (c : Char) : Char :=
  if 'A' ≤ c ∧ c ≤ 'Z' then Char.ofNat (c.toNat + 32) else c

/-- Model of Python `str.lower` (restricted to the ASCII range; every
lexicon entry compared by the code is already lower-case). -/
def lowerStr (s : String) : String :=
  ⟨s.data.map asciiLower⟩

/-- Characters stripped by Python `str.strip()` with no argument. -/
def isPySpace (c : Char) : Bool :=
  c == ' ' || c == '\t' || c == '\n' || c == '\r' || c == '\x0b' || c == '\x0c'

/-- Model of Python `str.strip()`. -/
def pyStrip (s : String) : String :=
  ⟨((s.data.dropWhile isPySpace).reverse.dropWhile isPySpace).reverse⟩

/-! ## conversation.py — lexicons, messages, outcome classification -/

/-- `ConversationState` from `backend/voice/conversation.py`. -/
inductive ConversationState where
  | greeting
  | listening
  | processing
  | bookingIntent
  | collectingVisitType
  | showingSlots
  | collectingSlotChoice
  | collectingName
  | collectingPhone
  | confirmingBooking
  | faq
  | transferring
  | ending
  deriving DecidableEq, Repr

/-- `ConversationManager.EMERGENCY_KEYWORDS_FR`. -/
def EMERGENCY_KEYWORDS_FR : List String :=
  ["douleur thoracique", "mal au coeur", "douleur poitrine",
   "difficulté à respirer", "ne peut pas respirer", "étouffe",
   "saignement", "hémorragie", "perte de conscience", "évanoui",
   "urgence", "911", "ambulance"]

/-- `ConversationManager.EMERGENCY_KEYWORDS_EN`. -/
def EMERGENCY_KEYWORDS_EN : List String :=
  ["chest pain", "heart attack", "can\x27t breathe", "difficulty breathing",
   "choking", "bleeding", "hemorrhage", "unconscious", "passed out",
   "emergency", "911", "ambulance"]

/-- `ConversationManager._is_emergency`: the keyword list is chosen by the
conversation's current language, and each keyword is tested as a substring
of the (already lower-cased) text. -/
def isEmergency (language : String) (text : String) : Bool :=
  let keywords := if language = "fr" then EMERGENCY_KEYWORDS_FR else EMERGENCY_KEYWORDS_EN
  keywords.any (fun k => containsSub k text)

/-- French transfer phrases from `ConversationManager._wants_transfer`. -/
def transferPhrasesFr : List String :=
  ["parler à quelqu\x27un", "parler à une personne", "parler à un humain",
   "une vraie personne", "réceptionniste", "quelqu\x27un d\x27autre"]

/-- English transfer phrases from `ConversationManager._wants_transfer`. -/
def transferPhrasesEn : List String :=
  ["speak to someone", "speak to a person", "speak to a human",
   "real person", "receptionist", "someone else", "talk to a human"]

/-- `ConversationManager._wants_transfer`. -/
def wantsTransfer (language : String) (text : String) : Bool :=
  let phrases := if language = "fr" then transferPhrasesFr else transferPhrasesEn
  phrases.any (fun p => containsSub p text)

/-- `SystemPrompts.get_emergency_message` from `backend/llm/prompts.py`. -/
def getEmergencyMessage (language : String) : String :=
  if language = "fr" then
    "Ceci semble être une urgence médicale. Veuillez raccrocher immédiatement et appeler le 911. Je répète, appelez le 911 maintenant."
  else
    "This sounds like a medical emergency. Please hang up immediately and call 911. I repeat, call 911 now."

/-- `SystemPrompts.get_transfer_message` from `backend/llm/prompts.py`. -/
def getTransferMessage (language : String) : String :=
  if language = "fr" then
    "Absolument! Je vous mets en contact avec un de nos collègues qui pourra mieux vous aider. Un petit instant."
  else
    "Absolutely! Let me connect you with one of my colleagues who can help you better. Just one moment."

/-- `ConversationManager.get_call_status`, embedded from the source. -/
def getCallStatus (state : ConversationState) (callerMessageCount aiResponseCount : Nat) : String :=
  if state = ConversationState.transferring then "transferred"
  else if callerMessageCount > 0 ∧ aiResponseCount = 0 then "failed"
  else if callerMessageCount = 0 then "no_interaction"
  else "completed"

/-- Call-outcome classification written from the specification's words:
`transferred` if the terminal state is transferring; otherwise `failed` if
the caller produced at least one utterance and the orchestrator produced
zero replies; otherwise `no_interaction` if the caller produced zero
utterances; otherwise `completed`. -/
def claimCallStatus (state : ConversationState) (callerUtterances aiReplies : Nat) : String :=
  if state = ConversationState.transferring then "transferred"
  else if 1 ≤ callerUtterances ∧ aiReplies = 0 then "failed"
  else if callerUtterances = 0 then "no_interaction"
  else "completed"

/-! ## conversation.py — the head of `get_response_streaming`, tool calls -/

/-- Outcome of the guard phase at the top of
`ConversationManager.get_response_streaming`: either the fixed emergency
message is yielded (model not invoked), or the fixed transfer message is
yielded with the state moved to transferring, or the language model is
streamed. -/
inductive TurnOutput where
  | emergency (msg : String)
  | transfer (msg : String)
  | llm
  deriving DecidableEq, Repr

/-- Decision taken by `get_response_streaming` on the last caller message
(`last_message = self.messages[-1]["content"].lower()`): emergency check
first, then transfer check, otherwise stream the LLM. The conversation
state `st` is passed to show it is not consulted by the code. -/
def respDecision (st : ConversationState) (language : String) (lastMessage : String) : TurnOutput :=
  let lower := lowerStr lastMessage
  let _ := st
  if isEmergency language lower then TurnOutput.emergency (getEmergencyMessage language)
  else if wantsTransfer language lower then TurnOutput.transfer (getTransferMessage language)
  else TurnOutput.llm

/-- One tool invocation produced by the model, as dispatched by
`ConversationManager.handle_tool_call`. For `book_appointment`,
`completes` records whether the awaited booking-service call returned
(when it raises, the handler aborts before mutating any per-call state,
because the `await` sits before every assignment), and `resultSuccess`
records the `success` field of the dictionary the service returned —
which `_handle_book_appointment` never reads. -/
inductive ToolInvocation where
  | getAvailableSlots
  | bookAppointment (completes : Bool) (resultSuccess : Bool)
  | transferToHuman
  | cancelAppointment
  | unknown
  deriving DecidableEq, Repr

/-- Per-call state touched by the tool handlers: the conversation state,
the current language, the `booking_made` flag, and the number of
booking-confirmation SMS tasks enqueued so far. -/
structure ConvSt where
  state : ConversationState
  language : String
  bookingMade : Bool
  smsSent : Nat
  deriving DecidableEq, Repr

/-- `ConversationManager.handle_tool_call` together with the
`booking_made` / SMS / state logic of `_handle_book_appointment`
(lines 871-896): the SMS is enqueued and the state moved to ending only
when `booking_made` is still false, and the flag is then set. -/
def handleToolCall (s : ConvSt) : ToolInvocation → ConvSt
  | ToolInvocation.getAvailableSlots => { s with state := ConversationState.showingSlots }
  | ToolInvocation.bookAppointment completes _ =>
      if completes then
        if s.bookingMade then s
        else { s with bookingMade := true, state := ConversationState.ending,
                      smsSent := s.smsSent + 1 }
      else s
  | ToolInvocation.transferToHuman => { s with state := ConversationState.transferring }
  | ToolInvocation.cancelAppointment => s
  | ToolInvocation.unknown => s

/-- Executing the tool calls accumulated over one LLM stream, in order. -/
def runTools (s : ConvSt) (calls : List ToolInvocation) : ConvSt :=
  calls.foldl handleToolCall s

/-- Is this a `book_appointment` call whose service call returned? -/
def isBookCompleted : ToolInvocation → Bool
  | ToolInvocation.bookAppointment true _ => true
  | _ => false

/-- Does the list contain a `book_appointment` call whose service call
returned? -/
def anyBookCompleted (calls : List ToolInvocation) : Bool :=
  calls.any isBookCompleted

/-- One caller turn of `get_response_streaming`, at the granularity the
claims need: the guard phase on the lower-cased last message, then — only
when neither guard fires — the tool calls returned by the LLM stream
(`tools`) are executed in order. Returns the new per-call state and the
fixed messages yielded by the guard phase. -/
def processTurn (s : ConvSt) (callerText : String) (tools : List ToolInvocation) :
    ConvSt × List String :=
  let lower := lowerStr callerText
  if isEmergency s.language lower then (s, [getEmergencyMessage s.language])
  else if wantsTransfer s.language lower then
    ({ s with state := ConversationState.transferring }, [getTransferMessage s.language])
  else (runTools s tools, [])

/-- Initial per-call state: `ConversationState.GREETING`, `booking_made =
False`, no SMS sent (`__init__` of `ConversationManager`). -/
def convInit (language : String) : ConvSt :=
  { state := ConversationState.greeting, language := language,
    bookingMade := false, smsSent := 0 }

/-! ## asr_client.py — language detection -/

/-- `french_indicators` from `DeepgramASRClient._detect_language`. -/
def frenchIndicators : List String :=
  ["bonjour", "merci", "oui", "non", "je", "vous", "rendez-vous",
   "docteur", "s\x27il vous plaît", "clinique", "santé", "médecin",
   "disponible", "quand", "aujourd\x27hui", "demain", "semaine",
   "voudrais", "pouvez", "avez", "est-ce", "comment", "pourquoi",
   "salut", "allo", "allô", "bien", "mal", "ça", "c\x27est",
   "un", "deux", "trois", "quatre", "cinq", "six", "sept", "huit", "neuf", "dix"]

/-- `sum(1 for word in french_indicators if word in transcript_lower)`. -/
def frenchMatches (transcript : String) : Nat :=
  (frenchIndicators.filter (fun w => containsSub w (lowerStr transcript))).length

/-- `DeepgramASRClient._detect_language`. -/
def detectLanguage (transcript : String) : String :=
  if frenchMatches transcript > 0 then "fr" else "en"

/-- `DeepgramASRClient._update_language`: overwrite when different. -/
def updateLanguage (current detected : String) : String :=
  if current ≠ detected then detected else current

/-- Language state after `_handle_transcript` sees a final transcript:
the detection runs on the transcript alone and the stored value is
overwritten (there is no locking or sticking). -/
def handleFinalLanguage (prev : String) (transcript : String) : String :=
  updateLanguage prev (detectLanguage transcript)

/-! ## llm/client.py — primary/fallback retry -/

/-- Result dictionary shape returned by `LLMClient.chat` (non-streaming):
the content, the model that produced it, and whether the `except` branch
built it (the `"error"` key is present). -/
structure ChatResult where
  content : String
  model : String
  isError : Bool
  deriving DecidableEq, Repr

/-- `LLMClient._get_error_message`. -/
def getErrorMessage (language : String) : String :=
  if language = "fr" then
    "Oups, pardon! J\x27ai eu un petit souci. Pouvez-vous me répéter ça?"
  else
    "Oops, sorry! I had a little hiccup there. Could you say that again for me?"

/-- The recursive fallback call inside `LLMClient.chat`'s `except` branch,
entered with `use_fallback=True`: one more attempt against the fallback
model; if it also fails, the canned message is returned with the error
marker (no exception escapes the function). `attempt b` is the provider
outcome for `use_fallback = b`: `some content` on success, `none` when the
request raises (network error, non-2xx, malformed payload). -/
def chatFallback (fallbackModel language : String) (attempt : Bool → Option String) : ChatResult :=
  match attempt true with
  | some c => { content := c, model := fallbackModel, isError := false }
  | none => { content := getErrorMessage language, model := fallbackModel, isError := true }

/-- `LLMClient.chat` (non-streaming): try the primary model; on any
exception retry exactly once via the fallback path. The second component
records the `use_fallback` flag of every attempt made, in order. -/
def chat (primaryModel fallbackModel language : String) (attempt : Bool → Option String) :
    ChatResult × List Bool :=
  match attempt false with
  | some c => ({ content := c, model := primaryModel, isError := false }, [false])
  | none => (chatFallback fallbackModel language attempt, [false, true])

/-! ## audio_utils.py — base64 telephony payload codec -/

/-- The standard base64 alphabet used by CPython's `base64.b64encode`. -/
def b64Alphabet : List Char :=
  "ABCDEFGHIJKLMNOPQRSTUVWXYZabcdefghijklmnopqrstuvwxyz0123456789+/".data

/-- Alphabet character for a 6-bit group. -/
def encByte (n : Nat) : Char := b64Alphabet.getD n '='

/-- Position of a character in the base64 alphabet (model of the decode
table of `base64.b64decode`). -/
def decCharB64 (c : Char) : Nat := b64Alphabet.findIdx (fun a => a == c)

/-- `base64.b64encode` on a byte sequence (bytes as `Nat` below 256):
groups of three bytes become four alphabet characters; a final group of
one or two bytes is padded with `=`. -/
def b64encode : List Nat → List Char
  | [] => []
  | [a] => [encByte (a / 4), encByte (a % 4 * 16), '=', '=']
  | [a, b] => [encByte (a / 4), encByte (a % 4 * 16 + b / 16), encByte (b % 16 * 4), '=']
  | a :: b :: c :: rest =>
      encByte (a / 4) :: encByte (a % 4 * 16 + b / 16) ::
      encByte (b % 16 * 4 + c / 64) :: encByte (c % 64) :: b64encode rest

/-- `base64.b64decode` on well-formed base64 text: four characters at a
time, with `=` padding marking a short final group. -/
def b64decode : List Char → List Nat
  | c1 :: c2 :: c3 :: c4 :: rest =>
      if c3 = '=' then [decCharB64 c1 * 4 + decCharB64 c2 / 16]
      else if c4 = '=' then
        [decCharB64 c1 * 4 + decCharB64 c2 / 16,
         decCharB64 c2 % 16 * 16 + decCharB64 c3 / 4]
      else
        (decCharB64 c1 * 4 + decCharB64 c2 / 16) ::
        (decCharB64 c2 % 16 * 16 + decCharB64 c3 / 4) ::
        (decCharB64 c3 % 4 * 64 + decCharB64 c4) :: b64decode rest
  | _ => []

/-- `AudioConverter.to_twilio_format`: base64-encode the audio bytes. -/
def to_twilio_format (audioData : List Nat) : List Char := b64encode audioData

/-- `AudioConverter.from_twilio_format`: base64-decode the payload. -/
def from_twilio_format (payload : List Char) : List Nat := b64decode payload

/-! ## twilio_handler.py — pending-media buffer protocol

`_handle_media` and `_connect_asr_and_flush` both take `self._media_lock`,
so every buffer access is one of two atomic critical sections; a call's
history is therefore a sequence of `media` sections interleaved with (at
most) one successful connect-and-flush section.  `asrConnected` below is
that whole critical section: flush the buffer to the recognizer in order,
empty it, and only then set `_asr_ready`. -/

/-- An atomic critical section on the media lock. -/
inductive GatewayEvent where
  | media (payload : String)
  | asrConnected
  deriving DecidableEq, Repr

/-- The state shared between `_handle_media` and
`_connect_asr_and_flush`: the `_asr_ready` flag, the `media_buffer`, and
the full ordered sequence of payloads handed to
`self.asr_client.send_audio` so far. -/
structure GatewayState where
  asrReady : Bool
  mediaBuffer : List String
  sentToASR : List String
  deriving DecidableEq, Repr

/-- `len(self.media_buffer) < 500` bound from `_handle_media`. -/
def mediaBufferCap : Nat := 500

/-- One critical section: `_handle_media` sends directly when
`_asr_ready`, otherwise appends to the buffer while it holds fewer than
500 payloads (and drops the frame once full); `_connect_asr_and_flush`
sends the buffered payloads in arrival order, empties the buffer, and
sets the ready flag last. -/
def gatewayStep (s : GatewayState) : GatewayEvent → GatewayState
  | GatewayEvent.media p =>
      if s.asrReady then { s with sentToASR := s.sentToASR ++ [p] }
      else if s.mediaBuffer.length < mediaBufferCap then
        { s with mediaBuffer := s.mediaBuffer ++ [p] }
      else s
  | GatewayEvent.asrConnected =>
      { asrReady := true, mediaBuffer := [],
        sentToASR := s.sentToASR ++ s.mediaBuffer }

/-- Run a sequence of critical sections. -/
def gatewayRun (s : GatewayState) (es : List GatewayEvent) : GatewayState :=
  es.foldl gatewayStep s

/-- Handler state right after `_handle_start`: not ready, empty buffer,
nothing sent. -/
def gatewayInit : GatewayState :=
  { asrReady := false, mediaBuffer := [], sentToASR := [] }

/-! ## twilio_handler.py — response-generation guard -/

/-- Events at the `is_generating_response` guard: an utterance-end signal
from the recognizer (`_on_utterance_end`), and the completion of a running
`_speak_streaming` (its `finally` block). -/
inductive GenEvent where
  | utteranceEnd
  | generationDone
  deriving DecidableEq, Repr

/-- The guard flag plus the number of `_speak_streaming` executions
currently in flight (started and not yet finished). -/
structure GenState where
  isGenerating : Bool
  activeGenerations : Nat
  deriving DecidableEq, Repr

/-- `_on_utterance_end`: when the flag is set the signal returns
immediately (dropped, nothing queued); otherwise `_speak_streaming`
starts, setting the flag first.  `generationDone` is the `finally` block
of `_speak_streaming`: clear the flag, one fewer generation in flight. -/
def genStep (s : GenState) : GenEvent → GenState
  | GenEvent.utteranceEnd =>
      if s.isGenerating then s
      else { isGenerating := true, activeGenerations := s.activeGenerations + 1 }
  | GenEvent.generationDone =>
      { isGenerating := false, activeGenerations := s.activeGenerations - 1 }

/-- Run a sequence of guard events. -/
def genRun (s : GenState) (es : List GenEvent) : GenState :=
  es.foldl genStep s

/-- A `finally` block can only run for a generation that is in progress,
and while a generation is in progress the flag is set (it was set when the
generation started and only the `finally` block clears it).  Traces of the
handler therefore fire `generationDone` only when the flag is set. -/
def genValidB (s : GenState) : List GenEvent → Bool
  | [] => true
  | e :: es =>
      (e != GenEvent.generationDone || s.isGenerating) && genValidB (genStep s e) es

/-- Handler state from `__init__`: flag clear, nothing in flight. -/
def genInit : GenState := { isGenerating := false, activeGenerations := 0 }

/-! ## twilio_handler.py — sentence-boundary chunking in `_speak_streaming` -/

/-- `sentence_delimiters = ".!?,"`. -/
def sentenceDelimiters : List Char := ['.', '!', '?', ',']

/-- `any(d in token for d in sentence_delimiters)`. -/
def hasDelim (token : String) : Bool :=
  sentenceDelimiters.any (fun d => token.data.contains d)

/-- `chunk = buffer.strip(); if chunk: speak(chunk)` — the chunk actually
handed to synthesis, when non-empty after stripping. -/
def optChunk (buffer : String) : List String :=
  if pyStrip buffer = "" then [] else [pyStrip buffer]

/-- The token loop of `_speak_streaming`, embedded from the source: each
token is appended to the buffer; when the token contains a sentence
delimiter and the buffer now exceeds 20 characters, the stripped buffer is
spoken and the buffer reset; after the stream, any leftover text that is
non-empty after stripping is spoken. Returns the chunks spoken, in order. -/
def speakStreamingGo (buffer : String) : List String → List String
  | [] => optChunk buffer
  | t :: rest =>
      let buffer' := buffer ++ t
      if hasDelim t ∧ buffer'.length > 20 then
        optChunk buffer' ++ speakStreamingGo "" rest
      else
        speakStreamingGo buffer' rest

/-- Chunks spoken by `_speak_streaming` for a given token stream. -/
def speakStreamingChunks (tokens : List String) : List String :=
  speakStreamingGo "" tokens

/-- One step of the chunking discipline as the specification words it:
buffered text is flushed to synthesis exactly when the most recent token
contains a sentence-boundary punctuation mark and the buffered text
exceeds the minimum length of 20 characters. -/
def specC9Step (st : String × List String) (token : String) : String × List String :=
  let buffered := st.1 ++ token
  if hasDelim token ∧ buffered.length > 20 then ("", st.2 ++ optChunk buffered)
  else (buffered, st.2)

/-- Chunking per the specification's words: fold the flush rule over the
tokens, then flush any non-empty remainder as a final chunk. -/
def specC9Chunks (tokens : List String) : List String :=
  let st := tokens.foldl specC9Step ("", [])
  st.2 ++ optChunk st.1

/-! ## Theorems for the verified claims -/

/-- C6: the call-outcome classification computed at call end is
`transferred` if the terminal state is transferring; otherwise `failed` if
the caller produced at least one utterance and the orchestrator produced
zero replies; otherwise `no_interaction` if the caller produced zero
utterances; otherwise `completed` — for every combination of terminal
state, caller-message count, and AI-response count. -/
theorem C6_call_status_classification :
    ∀ (state : ConversationState) (callerMessageCount aiResponseCount : Nat),
      getCallStatus state callerMessageCount aiResponseCount =
        claimCallStatus state callerMessageCount aiResponseCount := by
  intro state cc ac
  unfold getCallStatus claimCallStatus
  split_ifs with h1 h2 h3 h4 h5 <;> first | rfl | omega

/-- C8: the language classifier counts the matches of the fixed lexicon of
common French words in the transcript; the text is classified French
exactly when a match exists and defaults to English exactly when none
does, and the stored language after a final transcript is the fresh
classification of that transcript alone — independent of the previously
stored language (no locking or sticking). -/
theorem C8_language_heuristic :
    ∀ (transcript prev : String),
      (detectLanguage transcript = "fr" ↔ 0 < frenchMatches transcript) ∧
      (detectLanguage transcript = "en" ↔ frenchMatches transcript = 0) ∧
      handleFinalLanguage prev transcript = detectLanguage transcript := by
  intro transcript prev
  refine ⟨?_, ?_, ?_⟩
  · unfold detectLanguage
    by_cases h : frenchMatches transcript > 0
    · rw [if_pos h]; exact ⟨fun _ => h, fun _ => rfl⟩
    · rw [if_neg h]
      constructor
      · intro he; exact absurd he (by decide)
      · intro hm; exact absurd hm h
  · unfold detectLanguage
    by_cases h : frenchMatches transcript > 0
    · rw [if_pos h]
      constructor
      · intro he; exact absurd he (by decide)
      · intro hm; omega
    · rw [if_neg h]; exact ⟨fun _ => by omega, fun _ => rfl⟩
  · unfold handleFinalLanguage updateLanguage
    split_ifs with h
    · rfl
    · simpa using h

/-- C8 witness: the characterization evaluated at a concrete transcript
and a concrete previously stored language. -/
theorem C8_witness :
    (detectLanguage "bonjour docteur" = "fr" ↔ 0 < frenchMatches "bonjour docteur") ∧
    (detectLanguage "bonjour docteur" = "en" ↔ frenchMatches "bonjour docteur" = 0) ∧
    handleFinalLanguage "en" "bonjour docteur" = detectLanguage "bonjour docteur" :=
  C8_language_heuristic "bonjour docteur" "en"

/-- C5: when the primary-model request fails for any reason, `chat` makes
exactly one more attempt, against the fallback model; if the fallback
attempt also fails, the returned content is the fixed apologetic canned
message in the conversation's current language and the result is an
ordinary return value (the failure is absorbed, not propagated); if the
fallback attempt succeeds its content is returned. -/
theorem C5_llm_fallback :
    ∀ (primaryModel fallbackModel language : String) (attempt : Bool → Option String),
      attempt false = none →
      (chat primaryModel fallbackModel language attempt).2 = [false, true] ∧
      (attempt true = none →
        (chat primaryModel fallbackModel language attempt).1 =
          { content := getErrorMessage language, model := fallbackModel, isError := true }) ∧
      (∀ c, attempt true = some c →
        (chat primaryModel fallbackModel language attempt).1 =
          { content := c, model := fallbackModel, isError := false }) ∧
      getErrorMessage "fr" =
        "Oups, pardon! J\x27ai eu un petit souci. Pouvez-vous me répéter ça?" ∧
      getErrorMessage "en" =
        "Oops, sorry! I had a little hiccup there. Could you say that again for me?" := by
  intro pm fm lang attempt hfail
  refine ⟨?_, ?_, ?_, rfl, rfl⟩
  · simp [chat, hfail]
  · intro hfail2
    simp [chat, hfail, chatFallback, hfail2]
  · intro c hok
    simp [chat, hfail, chatFallback, hok]

/-- C5 witness: both attempts fail for a concrete provider oracle; the
canned French apology is returned and both models were tried in order. -/
theorem C5_witness :
    ((fun _ : Bool => (none : Option String)) false = none) ∧
    ((chat "deepseek/deepseek-v3.2" "openai/gpt-4o-mini" "fr"
        (fun _ => none)).2 = [false, true] ∧
      ((fun _ : Bool => (none : Option String)) true = none →
        (chat "deepseek/deepseek-v3.2" "openai/gpt-4o-mini" "fr" (fun _ => none)).1 =
          { content := getErrorMessage "fr", model := "openai/gpt-4o-mini", isError := true }) ∧
      (∀ c, (fun _ : Bool => (none : Option String)) true = some c →
        (chat "deepseek/deepseek-v3.2" "openai/gpt-4o-mini" "fr" (fun _ => none)).1 =
          { content := c, model := "openai/gpt-4o-mini", isError := false }) ∧
      getErrorMessage "fr" =
        "Oups, pardon! J\x27ai eu un petit souci. Pouvez-vous me répéter ça?" ∧
      getErrorMessage "en" =
        "Oops, sorry! I had a little hiccup there. Could you say that again for me?") :=
  ⟨rfl, C5_llm_fallback "deepseek/deepseek-v3.2" "openai/gpt-4o-mini" "fr" (fun _ => none) rfl⟩

/-- C3 counterexample: the claim as stated is false on the code.  The
English emergency keyword "chest pain" is configured, the final caller
utterance "chest pain" contains it, yet with the conversation language set
to French the response generator invokes the language-model backend
instead of producing the emergency message — `_is_emergency` only tests
the keyword list of the current conversation language. -/
theorem C3_counterexample :
    EMERGENCY_KEYWORDS_EN.contains "chest pain" = true ∧
    containsSub "chest pain" (lowerStr "chest pain") = true ∧
    respDecision ConversationState.listening "fr" "chest pain" = TurnOutput.llm := by
  decide

/-- C3 (amended): for every conversation state and every final caller
utterance whose lower-cased text contains an emergency keyword configured
for the conversation's *current* language, the next output produced by the
response generator is exactly the fixed localized emergency message and
the language-model backend is not invoked for that turn. -/
theorem C3_emergency_short_circuit :
    ∀ (st : ConversationState) (language lastMessage : String),
      isEmergency language (lowerStr lastMessage) = true →
      respDecision st language lastMessage =
        TurnOutput.emergency (getEmergencyMessage language) := by
  intro st language lastMessage h
  simp [respDecision, h]

/-- C3 witness: a concrete French utterance containing the configured
keyword "urgence" short-circuits to the fixed French emergency message in
an arbitrary conversation state. -/
theorem C3_emergency_witness :
    isEmergency "fr" (lowerStr "C\x27est une urgence") = true ∧
    respDecision ConversationState.showingSlots "fr" "C\x27est une urgence" =
      TurnOutput.emergency (getEmergencyMessage "fr") :=
  ⟨by decide, C3_emergency_short_circuit ConversationState.showingSlots "fr" "C\x27est une urgence" (by decide)⟩

/-- C4 counterexample: the claim as stated is false on the code.  After a
transfer-phrase utterance moves the state to transferring and produces the
fixed transfer message, a later caller turn is still processed normally:
when the model replies to it with a `get_available_slots` tool call, the
tool executes and the state leaves transferring for showing-slots —
nothing in `get_response_streaming` or `handle_tool_call` consults the
transferring state. -/
theorem C4_counterexample :
    (processTurn (convInit "en") "I want to speak to a human" []).1.state =
      ConversationState.transferring ∧
    (processTurn (convInit "en") "I want to speak to a human" []).2 =
      [getTransferMessage "en"] ∧
    (processTurn (processTurn (convInit "en") "I want to speak to a human" []).1
        "can I book an appointment" [ToolInvocation.getAvailableSlots]).1.state =
      ConversationState.showingSlots ∧
    ConversationState.showingSlots ≠ ConversationState.transferring := by
  decide

/-- C4 (amended): for every final caller utterance whose lower-cased text
contains a transfer phrase configured for the current language and no
emergency keyword, the conversation state transitions to transferring and
the fixed transfer message is produced, with no tool calls executed on
that turn (whatever tool calls the model might have produced are never
requested); the transferring state is not terminal, however — a subsequent
turn may still invoke the model and its tool calls can move the state
elsewhere. -/
theorem C4_transfer_turn :
    ∀ (s : ConvSt) (callerText : String) (tools : List ToolInvocation),
      isEmergency s.language (lowerStr callerText) = false →
      wantsTransfer s.language (lowerStr callerText) = true →
      (processTurn s callerText tools).1 =
        { s with state := ConversationState.transferring } ∧
      (processTurn s callerText tools).2 = [getTransferMessage s.language] := by
  intro s callerText tools hEmg hTr
  simp [processTurn, hEmg, hTr]

/-- C4 witness: a concrete English transfer request transitions a mid-call
state to transferring and produces the fixed English transfer message,
ignoring a pending tool call. -/
theorem C4_transfer_witness :
    isEmergency "en" (lowerStr "the receptionist please") = false ∧
    wantsTransfer "en" (lowerStr "the receptionist please") = true ∧
    (processTurn { state := ConversationState.showingSlots, language := "en",
                   bookingMade := false, smsSent := 0 }
        "the receptionist please" [ToolInvocation.getAvailableSlots]).1 =
      { state := ConversationState.transferring, language := "en",
        bookingMade := false, smsSent := 0 } ∧
    (processTurn { state := ConversationState.showingSlots, language := "en",
                   bookingMade := false, smsSent := 0 }
        "the receptionist please" [ToolInvocation.getAvailableSlots]).2 =
      [getTransferMessage "en"] := by
  refine ⟨by decide, by decide, ?_⟩
  exact C4_transfer_turn
    { state := ConversationState.showingSlots, language := "en",
      bookingMade := false, smsSent := 0 }
    "the receptionist please" [ToolInvocation.getAvailableSlots] (by decide) (by decide)

/-- Characterization of the booking flag and SMS counter over any
sequence of tool invocations: the flag ends set exactly when it started
set or some completed `book_appointment` occurred, and the SMS counter
grows by one exactly when the flag was clear and some completed
`book_appointment` occurred — by at most one in every case. -/
theorem runTools_booking_char :
    ∀ (calls : List ToolInvocation) (s : ConvSt),
      (runTools s calls).bookingMade = (s.bookingMade || anyBookCompleted calls) ∧
      (runTools s calls).smsSent =
        s.smsSent + (if s.bookingMade = false ∧ anyBookCompleted calls = true then 1 else 0) := by
  intro calls
  induction calls with
  | nil =>
      intro s
      simp [runTools, anyBookCompleted]
  | cons c rest ih =>
      intro s
      have hstep : runTools s (c :: rest) = runTools (handleToolCall s c) rest := rfl
      have hany : anyBookCompleted (c :: rest) = (isBookCompleted c || anyBookCompleted rest) := by
        simp [anyBookCompleted]
      rw [hstep, hany]
      rcases c with _ | ⟨completes, rs⟩ | _ | _ | _
      · rcases ih { s with state := ConversationState.showingSlots } with ⟨h1, h2⟩
        refine ⟨by simpa [handleToolCall, isBookCompleted] using h1,
                by simpa [handleToolCall, isBookCompleted] using h2⟩
      · cases completes with
        | true =>
            by_cases hb : s.bookingMade
            · have hh : handleToolCall s (ToolInvocation.bookAppointment true rs) = s := by
                simp [handleToolCall, hb]
              rw [hh]
              rcases ih s with ⟨h1, h2⟩
              constructor
              · rw [h1, hb]; simp [isBookCompleted]
              · rw [h2, hb]; simp [isBookCompleted]
            · have hb' : s.bookingMade = false := by simpa using hb
              have hh : handleToolCall s (ToolInvocation.bookAppointment true rs) =
                  { s with bookingMade := true, state := ConversationState.ending,
                           smsSent := s.smsSent + 1 } := by
                simp [handleToolCall, hb']
              rw [hh]
              rcases ih { s with bookingMade := true, state := ConversationState.ending,
                                 smsSent := s.smsSent + 1 } with ⟨h1, h2⟩
              constructor
              · rw [h1]; simp [isBookCompleted, hb']
              · rw [h2]; simp [isBookCompleted, hb']
        | false =>
            rcases ih s with ⟨h1, h2⟩
            refine ⟨by simpa [handleToolCall, isBookCompleted] using h1,
                    by simpa [handleToolCall, isBookCompleted] using h2⟩
      · rcases ih { s with state := ConversationState.transferring } with ⟨h1, h2⟩
        refine ⟨by simpa [handleToolCall, isBookCompleted] using h1,
                by simpa [handleToolCall, isBookCompleted] using h2⟩
      · rcases ih s with ⟨h1, h2⟩
        refine ⟨by simpa [handleToolCall, isBookCompleted] using h1,
                by simpa [handleToolCall, isBookCompleted] using h2⟩
      · rcases ih s with ⟨h1, h2⟩
        refine ⟨by simpa [handleToolCall, isBookCompleted] using h1,
                by simpa [handleToolCall, isBookCompleted] using h2⟩

/-- C10: over any sequence of tool invocations in a call, the
booking-confirmation SMS is enqueued at most once from the initial call
state; the `booking_made` flag transitions monotonically — it ends set
exactly when it started set or a completed `book_appointment` call
occurred, so it never returns to false; and a `book_appointment` call
arriving while the flag is already set leaves the per-call state unchanged
(no second SMS, no re-trigger of the transition to ending). -/
theorem C10_booking_sms_once :
    ∀ (s : ConvSt) (calls : List ToolInvocation) (language : String) (rs : Bool),
      (runTools s calls).bookingMade = (s.bookingMade || anyBookCompleted calls) ∧
      (runTools s calls).smsSent =
        s.smsSent + (if s.bookingMade = false ∧ anyBookCompleted calls = true then 1 else 0) ∧
      (s.bookingMade = true →
        handleToolCall s (ToolInvocation.bookAppointment true rs) = s) ∧
      (runTools (convInit language) calls).smsSent ≤ 1 := by
  intro s calls language rs
  rcases runTools_booking_char calls s with ⟨h1, h2⟩
  rcases runTools_booking_char calls (convInit language) with ⟨_, h4⟩
  refine ⟨h1, h2, ?_, ?_⟩
  · intro hb
    simp [handleToolCall, hb]
  · rw [h4]
    simp only [convInit]
    split_ifs <;> omega

/-- C10 witness: two completed `book_appointment` calls in one call — the
SMS counter reaches exactly one, the flag is set, and the second call on
the already-set flag is a no-op. -/
theorem C10_booking_witness :
    (runTools { state := ConversationState.confirmingBooking, language := "fr",
                bookingMade := true, smsSent := 1 }
        [ToolInvocation.bookAppointment true true] ).bookingMade =
      (true || anyBookCompleted [ToolInvocation.bookAppointment true true]) ∧
    (runTools { state := ConversationState.confirmingBooking, language := "fr",
                bookingMade := true, smsSent := 1 }
        [ToolInvocation.bookAppointment true true] ).smsSent =
      1 + (if (true = false ∧ anyBookCompleted [ToolInvocation.bookAppointment true true] = true)
           then 1 else 0) ∧
    ((true : Bool) = true →
      handleToolCall { state := ConversationState.confirmingBooking, language := "fr",
                       bookingMade := true, smsSent := 1 }
          (ToolInvocation.bookAppointment true true) =
        { state := ConversationState.confirmingBooking, language := "fr",
          bookingMade := true, smsSent := 1 }) ∧
    (runTools (convInit "fr") [ToolInvocation.bookAppointment true true]).smsSent ≤ 1 :=
  C10_booking_sms_once
    { state := ConversationState.confirmingBooking, language := "fr",
      bookingMade := true, smsSent := 1 }
    [ToolInvocation.bookAppointment true true] "fr" true

/-- C10 counterexample: the flag does not wait for a *successful*
booking.  `_handle_book_appointment` never reads the `success` field of
the dictionary the booking service returns, so a `book_appointment` call
whose service result reports failure (`success=False`, e.g. an invalid
slot-id format) still sets `booking_made`, still moves the state to
ending, and still enqueues the confirmation SMS. -/
theorem C10_counterexample :
    (handleToolCall (convInit "fr") (ToolInvocation.bookAppointment true false)).bookingMade
        = true ∧
    (handleToolCall (convInit "fr") (ToolInvocation.bookAppointment true false)).smsSent = 1 ∧
    (handleToolCall (convInit "fr") (ToolInvocation.bookAppointment true false)).state
        = ConversationState.ending := by
  decide

/-- While the recognizer is not ready, a run of media frames only fills
the buffer, up to its remaining capacity, in arrival order; nothing is
sent and the ready flag stays clear. -/
theorem gatewayRun_media_notReady :
    ∀ (pre : List String) (buf sent : List String),
      gatewayRun { asrReady := false, mediaBuffer := buf, sentToASR := sent }
          (pre.map GatewayEvent.media) =
        { asrReady := false,
          mediaBuffer := buf ++ pre.take (mediaBufferCap - buf.length),
          sentToASR := sent } := by
  intro pre
  induction pre with
  | nil => intro buf sent; simp [gatewayRun]
  | cons p rest ih =>
      intro buf sent
      have hstep :
          gatewayRun { asrReady := false, mediaBuffer := buf, sentToASR := sent }
              ((p :: rest).map GatewayEvent.media) =
            gatewayRun (gatewayStep { asrReady := false, mediaBuffer := buf, sentToASR := sent }
              (GatewayEvent.media p)) (rest.map GatewayEvent.media) := rfl
      rw [hstep]
      by_cases h : buf.length < mediaBufferCap
      · have hs : gatewayStep { asrReady := false, mediaBuffer := buf, sentToASR := sent }
              (GatewayEvent.media p) =
            { asrReady := false, mediaBuffer := buf ++ [p], sentToASR := sent } := by
          simp [gatewayStep, h]
        rw [hs, ih]
        have hlen : mediaBufferCap - buf.length = (mediaBufferCap - (buf.length + 1)) + 1 := by
          unfold mediaBufferCap at h ⊢
          omega
        have htake : (p :: rest).take (mediaBufferCap - buf.length) =
            p :: rest.take (mediaBufferCap - (buf.length + 1)) := by
          rw [hlen, List.take_succ_cons]
        rw [htake]
        simp
      · have hs : gatewayStep { asrReady := false, mediaBuffer := buf, sentToASR := sent }
              (GatewayEvent.media p) =
            { asrReady := false, mediaBuffer := buf, sentToASR := sent } := by
          simp [gatewayStep, h]
        rw [hs, ih]
        have hz : mediaBufferCap - buf.length = 0 := by
          unfold mediaBufferCap at h ⊢
          omega
        rw [hz]
        simp

/-- Once the recognizer is ready, every media frame is sent directly, in
arrival order, and the buffer is untouched. -/
theorem gatewayRun_media_ready :
    ∀ (post : List String) (buf sent : List String),
      gatewayRun { asrReady := true, mediaBuffer := buf, sentToASR := sent }
          (post.map GatewayEvent.media) =
        { asrReady := true, mediaBuffer := buf, sentToASR := sent ++ post } := by
  intro post
  induction post with
  | nil => intro buf sent; simp [gatewayRun]
  | cons p rest ih =>
      intro buf sent
      have hstep :
          gatewayRun { asrReady := true, mediaBuffer := buf, sentToASR := sent }
              ((p :: rest).map GatewayEvent.media) =
            gatewayRun { asrReady := true, mediaBuffer := buf, sentToASR := sent ++ [p] }
              (rest.map GatewayEvent.media) := rfl
      rw [hstep, ih]
      simp

/-- C1: for every sequence `pre` of media frames arriving while the
recognizer is not yet ready, the handler retains exactly the first 500
payloads in the buffer (later ones are dropped), has sent nothing to the
recognizer, and has not set the ready flag; when the connect-and-flush
critical section runs, it sends exactly the retained payloads to the
recognizer in arrival order, empties the buffer, and sets the ready flag,
after which every later frame `post` is sent directly, so the recognizer
receives `pre.take 500 ++ post` — each frame at most once, none both
buffered-and-direct, and none direct before the flush completed. -/
theorem C1_buffer_flush_protocol :
    ∀ (pre post : List String),
      (gatewayRun gatewayInit (pre.map GatewayEvent.media)).asrReady = false ∧
      (gatewayRun gatewayInit (pre.map GatewayEvent.media)).sentToASR = [] ∧
      (gatewayRun gatewayInit (pre.map GatewayEvent.media)).mediaBuffer =
        pre.take mediaBufferCap ∧
      gatewayRun gatewayInit
          (pre.map GatewayEvent.media ++ GatewayEvent.asrConnected :: post.map GatewayEvent.media) =
        { asrReady := true, mediaBuffer := [],
          sentToASR := pre.take mediaBufferCap ++ post } := by
  intro pre post
  have hpre : gatewayRun gatewayInit (pre.map GatewayEvent.media) =
      { asrReady := false, mediaBuffer := pre.take mediaBufferCap, sentToASR := [] } := by
    have := gatewayRun_media_notReady pre [] []
    simpa [gatewayInit] using this
  refine ⟨by rw [hpre], by rw [hpre], by rw [hpre], ?_⟩
  have hsplit : gatewayRun gatewayInit
      (pre.map GatewayEvent.media ++ GatewayEvent.asrConnected :: post.map GatewayEvent.media) =
      gatewayRun (gatewayRun gatewayInit (pre.map GatewayEvent.media))
        (GatewayEvent.asrConnected :: post.map GatewayEvent.media) := by
    unfold gatewayRun
    exact List.foldl_append gatewayStep gatewayInit _ _
  rw [hsplit, hpre]
  have hconnect : gatewayStep
      { asrReady := false, mediaBuffer := pre.take mediaBufferCap, sentToASR := [] }
      GatewayEvent.asrConnected =
      { asrReady := true, mediaBuffer := [], sentToASR := pre.take mediaBufferCap } := by
    simp [gatewayStep]
  have hcons : gatewayRun
      { asrReady := false, mediaBuffer := pre.take mediaBufferCap, sentToASR := [] }
      (GatewayEvent.asrConnected :: post.map GatewayEvent.media) =
      gatewayRun { asrReady := true, mediaBuffer := [], sentToASR := pre.take mediaBufferCap }
        (post.map GatewayEvent.media) := by
    unfold gatewayRun
    rw [List.foldl_cons, hconnect]
  rw [hcons, gatewayRun_media_ready]

/-- Guard invariant preserved along any valid trace: at most one
generation is in flight, and the `is_generating_response` flag is set
exactly while one is. -/
theorem genRun_invariant :
    ∀ (es : List GenEvent) (s : GenState),
      genValidB s es = true →
      s.activeGenerations ≤ 1 →
      s.isGenerating = decide (s.activeGenerations = 1) →
      (genRun s es).activeGenerations ≤ 1 ∧
      (genRun s es).isGenerating = decide ((genRun s es).activeGenerations = 1) := by
  intro es
  induction es with
  | nil => intro s _ h1 h2; exact ⟨h1, h2⟩
  | cons e rest ih =>
      intro s hv h1 h2
      have hpair : (e != GenEvent.generationDone || s.isGenerating) = true ∧
          genValidB (genStep s e) rest = true := by
        simpa [genValidB] using hv
      have hv' : genValidB (genStep s e) rest = true := hpair.2
      have hrun : genRun s (e :: rest) = genRun (genStep s e) rest := rfl
      rw [hrun]
      cases e with
      | utteranceEnd =>
          by_cases hg : s.isGenerating = true
          · have hstep : genStep s GenEvent.utteranceEnd = s := by
              simp [genStep, hg]
            rw [hstep] at hv' ⊢
            exact ih s hv' h1 h2
          · have hg' : s.isGenerating = false := by simpa using hg
            have hzero : s.activeGenerations = 0 := by
              rw [hg'] at h2
              by_cases hone : s.activeGenerations = 1
              · rw [hone] at h2; simp at h2
              · omega
            have hstep : genStep s GenEvent.utteranceEnd =
                { isGenerating := true, activeGenerations := s.activeGenerations + 1 } := by
              simp [genStep, hg']
            rw [hstep] at hv' ⊢
            exact ih _ hv' (by simp [hzero]) (by simp [hzero])
      | generationDone =>
          have hg : s.isGenerating = true := by
            have := hpair.1
            simpa using this
          have hone : s.activeGenerations = 1 := by
            rw [hg] at h2
            by_cases hone : s.activeGenerations = 1
            · exact hone
            · rw [eq_comm] at h2; simp [hone] at h2
          have hstep : genStep s GenEvent.generationDone =
              { isGenerating := false, activeGenerations := s.activeGenerations - 1 } := rfl
          rw [hstep] at hv' ⊢
          exact ih _ hv' (by simp [hone]) (by simp [hone])

/-- C2: along every valid trace of utterance-end signals and generation
completions, at most one response generation is in flight at any time; the
`is_generating_response` flag is set exactly while one is (so it is
cleared only when the in-progress generation finishes, and only a
completion event can clear it); and an utterance-end signal arriving while
the flag is set leaves the state completely unchanged — dropped, not
queued. -/
theorem C2_single_generation :
    ∀ (es : List GenEvent) (e : GenEvent),
      genValidB genInit es = true →
      (genRun genInit es).activeGenerations ≤ 1 ∧
      (genRun genInit es).isGenerating =
        decide ((genRun genInit es).activeGenerations = 1) ∧
      ((genRun genInit es).isGenerating = true →
        genStep (genRun genInit es) GenEvent.utteranceEnd = genRun genInit es) ∧
      ((genStep (genRun genInit es) e).isGenerating = false →
        (genRun genInit es).isGenerating = false ∨ e = GenEvent.generationDone) := by
  intro es e hv
  rcases genRun_invariant es genInit hv (by simp [genInit]) (by simp [genInit]) with ⟨h1, h2⟩
  refine ⟨h1, h2, ?_, ?_⟩
  · intro hg
    simp [genStep, hg]
  · intro hclear
    cases e with
    | utteranceEnd =>
        by_cases hg : (genRun genInit es).isGenerating = true
        · have hstep : genStep (genRun genInit es) GenEvent.utteranceEnd =
              genRun genInit es := by
            simp [genStep, hg]
          rw [hstep] at hclear
          exact absurd hclear (by simp [hg])
        · left; simpa using hg
    | generationDone => right; rfl

/-- C2 witness: the concrete trace "utterance end, second utterance end
while generating (dropped), generation finishes, utterance end" is valid
and satisfies every conjunct, instantiated with a further completion
event. -/
theorem C2_witness :
    genValidB genInit
        [GenEvent.utteranceEnd, GenEvent.utteranceEnd, GenEvent.generationDone,
         GenEvent.utteranceEnd] = true ∧
    ((genRun genInit
        [GenEvent.utteranceEnd, GenEvent.utteranceEnd, GenEvent.generationDone,
         GenEvent.utteranceEnd]).activeGenerations ≤ 1 ∧
      (genRun genInit
        [GenEvent.utteranceEnd, GenEvent.utteranceEnd, GenEvent.generationDone,
         GenEvent.utteranceEnd]).isGenerating =
        decide ((genRun genInit
          [GenEvent.utteranceEnd, GenEvent.utteranceEnd, GenEvent.generationDone,
           GenEvent.utteranceEnd]).activeGenerations = 1) ∧
      ((genRun genInit
          [GenEvent.utteranceEnd, GenEvent.utteranceEnd, GenEvent.generationDone,
           GenEvent.utteranceEnd]).isGenerating = true →
        genStep (genRun genInit
          [GenEvent.utteranceEnd, GenEvent.utteranceEnd, GenEvent.generationDone,
           GenEvent.utteranceEnd]) GenEvent.utteranceEnd =
          genRun genInit
            [GenEvent.utteranceEnd, GenEvent.utteranceEnd, GenEvent.generationDone,
             GenEvent.utteranceEnd]) ∧
      ((genStep (genRun genInit
          [GenEvent.utteranceEnd, GenEvent.utteranceEnd, GenEvent.generationDone,
           GenEvent.utteranceEnd]) GenEvent.generationDone).isGenerating = false →
        (genRun genInit
          [GenEvent.utteranceEnd, GenEvent.utteranceEnd, GenEvent.generationDone,
           GenEvent.utteranceEnd]).isGenerating = false ∨
          GenEvent.generationDone = GenEvent.generationDone)) :=
  ⟨by decide,
   C2_single_generation
     [GenEvent.utteranceEnd, GenEvent.utteranceEnd, GenEvent.generationDone,
      GenEvent.utteranceEnd] GenEvent.generationDone (by decide)⟩

/-- The iterative chunking loop, started with any buffer and chunk
accumulator, agrees with the specification-level fold of the flush rule. -/
theorem speakStreaming_fold :
    ∀ (tokens : List String) (buffer : String) (acc : List String),
      acc ++ speakStreamingGo buffer tokens =
        ((tokens.foldl specC9Step (buffer, acc)).2 ++
          optChunk (tokens.foldl specC9Step (buffer, acc)).1) := by
  intro tokens
  induction tokens with
  | nil => intro buffer acc; simp [speakStreamingGo]
  | cons t rest ih =>
      intro buffer acc
      by_cases h : hasDelim t ∧ (buffer ++ t).length > 20
      · have hgo : speakStreamingGo buffer (t :: rest) =
            optChunk (buffer ++ t) ++ speakStreamingGo "" rest := by
          simp only [speakStreamingGo]
          rw [if_pos h]
        have hfold : (t :: rest).foldl specC9Step (buffer, acc) =
            rest.foldl specC9Step ("", acc ++ optChunk (buffer ++ t)) := by
          simp only [List.foldl_cons, specC9Step]
          rw [if_pos h]
        rw [hgo, hfold, ← List.append_assoc]
        exact ih "" (acc ++ optChunk (buffer ++ t))
      · have hgo : speakStreamingGo buffer (t :: rest) =
            speakStreamingGo (buffer ++ t) rest := by
          simp only [speakStreamingGo]
          rw [if_neg h]
        have hfold : (t :: rest).foldl specC9Step (buffer, acc) =
            rest.foldl specC9Step (buffer ++ t, acc) := by
          simp only [List.foldl_cons, specC9Step]
          rw [if_neg h]
        rw [hgo, hfold]
        exact ih (buffer ++ t) acc

/-- C9: for every token stream, the chunks that `_speak_streaming` hands
to synthesis are exactly those of the specified discipline — the buffer is
flushed precisely when the most recent token contains a sentence-boundary
punctuation mark and the buffered text exceeds the minimum length of 20
characters, and any remainder that is non-empty after stripping is flushed
as a final chunk when the stream ends. -/
theorem C9_chunking :
    ∀ (tokens : List String), speakStreamingChunks tokens = specC9Chunks tokens := by
  intro tokens
  have := speakStreaming_fold tokens "" []
  simpa [speakStreamingChunks, specC9Chunks] using this

/-- Decoding the alphabet character of any 6-bit group recovers the
group. -/
theorem decCharB64_encByte : ∀ n : Nat, n < 64 → decCharB64 (encByte n) = n := by
  decide

/-- No 6-bit group encodes to the padding character. -/
theorem encByte_ne_pad : ∀ n : Nat, n < 64 → encByte n ≠ '=' := by
  decide

/-- Unfolding of the decoder on a full group of four non-padding
characters. -/
theorem b64decode_cons4 (c1 c2 c3 c4 : Char) (rest : List Char)
    (h3 : c3 ≠ '=') (h4 : c4 ≠ '=') :
    b64decode (c1 :: c2 :: c3 :: c4 :: rest) =
      (decCharB64 c1 * 4 + decCharB64 c2 / 16) ::
      (decCharB64 c2 % 16 * 16 + decCharB64 c3 / 4) ::
      (decCharB64 c3 % 4 * 64 + decCharB64 c4) :: b64decode rest := by
  simp only [b64decode]
  rw [if_neg h3, if_neg h4]

/-- Unfolding of the decoder on a final group carrying one byte. -/
theorem b64decode_pad2 (c1 c2 : Char) :
    b64decode [c1, c2, '=', '='] = [decCharB64 c1 * 4 + decCharB64 c2 / 16] := by
  simp [b64decode]

/-- Unfolding of the decoder on a final group carrying two bytes. -/
theorem b64decode_pad1 (c1 c2 c3 : Char) (h3 : c3 ≠ '=') :
    b64decode [c1, c2, c3, '='] =
      [decCharB64 c1 * 4 + decCharB64 c2 / 16,
       decCharB64 c2 % 16 * 16 + decCharB64 c3 / 4] := by
  simp only [b64decode]
  rw [if_neg h3]
  simp

/-- Base64 round-trip on byte sequences: decoding the encoding of any
byte sequence returns it unchanged. -/
theorem b64_roundtrip : ∀ (x : List Nat), (∀ y ∈ x, y < 256) → b64decode (b64encode x) = x
  | [] => fun _ => rfl
  | [a] => fun h => by
      have ha : a < 256 := h a (by simp)
      have h1 : a / 4 < 64 := by omega
      have h2 : a % 4 * 16 < 64 := by omega
      show b64decode [encByte (a / 4), encByte (a % 4 * 16), '=', '='] = [a]
      rw [b64decode_pad2, decCharB64_encByte _ h1, decCharB64_encByte _ h2]
      have e1 : a / 4 * 4 + a % 4 * 16 / 16 = a := by omega
      rw [e1]
  | [a, b] => fun h => by
      have ha : a < 256 := h a (by simp)
      have hb : b < 256 := h b (by simp)
      have h1 : a / 4 < 64 := by omega
      have h2 : a % 4 * 16 + b / 16 < 64 := by omega
      have h3 : b % 16 * 4 < 64 := by omega
      show b64decode
          [encByte (a / 4), encByte (a % 4 * 16 + b / 16), encByte (b % 16 * 4), '='] = [a, b]
      rw [b64decode_pad1 _ _ _ (encByte_ne_pad _ h3),
        decCharB64_encByte _ h1, decCharB64_encByte _ h2, decCharB64_encByte _ h3]
      have e1 : a / 4 * 4 + (a % 4 * 16 + b / 16) / 16 = a := by omega
      have e2 : (a % 4 * 16 + b / 16) % 16 * 16 + b % 16 * 4 / 4 = b := by omega
      rw [e1, e2]
  | a :: b :: c :: d :: rest => fun h => by
      have ha : a < 256 := h a (by simp)
      have hb : b < 256 := h b (by simp)
      have hc : c < 256 := h c (by simp)
      have h1 : a / 4 < 64 := by omega
      have h2 : a % 4 * 16 + b / 16 < 64 := by omega
      have h3 : b % 16 * 4 + c / 64 < 64 := by omega
      have h4 : c % 64 < 64 := by omega
      have ih := b64_roundtrip (d :: rest) (fun y hy => h y (by simp [hy]))
      show b64decode
          (encByte (a / 4) :: encByte (a % 4 * 16 + b / 16) ::
            encByte (b % 16 * 4 + c / 64) :: encByte (c % 64) :: b64encode (d :: rest)) =
        a :: b :: c :: d :: rest
      rw [b64decode_cons4 _ _ _ _ _ (encByte_ne_pad _ h3) (encByte_ne_pad _ h4),
        decCharB64_encByte _ h1, decCharB64_encByte _ h2,
        decCharB64_encByte _ h3, decCharB64_encByte _ h4]
      have e1 : a / 4 * 4 + (a % 4 * 16 + b / 16) / 16 = a := by omega
      have e2 : (a % 4 * 16 + b / 16) % 16 * 16 + (b % 16 * 4 + c / 64) / 4 = b := by omega
      have e3 : (b % 16 * 4 + c / 64) % 4 * 64 + c % 64 = c := by omega
      rw [e1, e2, e3, ih]
  | [a, b, c] => fun h => by
      have ha : a < 256 := h a (by simp)
      have hb : b < 256 := h b (by simp)
      have hc : c < 256 := h c (by simp)
      have h1 : a / 4 < 64 := by omega
      have h2 : a % 4 * 16 + b / 16 < 64 := by omega
      have h3 : b % 16 * 4 + c / 64 < 64 := by omega
      have h4 : c % 64 < 64 := by omega
      show b64decode
          [encByte (a / 4), encByte (a % 4 * 16 + b / 16),
           encByte (b % 16 * 4 + c / 64), encByte (c % 64)] = [a, b, c]
      rw [b64decode_cons4 _ _ _ _ _ (encByte_ne_pad _ h3) (encByte_ne_pad _ h4),
        decCharB64_encByte _ h1, decCharB64_encByte _ h2,
        decCharB64_encByte _ h3, decCharB64_encByte _ h4]
      have e1 : a / 4 * 4 + (a % 4 * 16 + b / 16) / 16 = a := by omega
      have e2 : (a % 4 * 16 + b / 16) % 16 * 16 + (b % 16 * 4 + c / 64) / 4 = b := by omega
      have e3 : (b % 16 * 4 + c / 64) % 4 * 64 + c % 64 = c := by omega
      rw [e1, e2, e3]
      rfl

/-- C7: for every byte sequence `x`, decoding the telephony-format
encoding of `x` yields `x` again —
`from_twilio_format (to_twilio_format x) = x`. -/
theorem C7_codec_roundtrip :
    ∀ (x : List Nat), (∀ y ∈ x, y < 256) → from_twilio_format (to_twilio_format x) = x :=
  fun x h => b64_roundtrip x h

/-- C7 witness: the round trip at the concrete byte sequence "hello". -/
theorem C7_codec_witness :
    (∀ y ∈ [104, 101, 108, 108, 111], y < 256) ∧
    from_twilio_format (to_twilio_format [104, 101, 108, 108, 111]) =
      [104, 101, 108, 108, 111] :=
  ⟨by decide, C7_codec_roundtrip [104, 101, 108, 108, 111] (by decide)⟩

end MedVoice
